import Mathlib

/-!
Verification development for the Relay coordination service
(luljaj/RelayFrontend).  The definitions below are a shallow embedding of
the TypeScript request handlers and library modules:

* `src/app/api/check_status/route.ts` (the `check_status` endpoint),
* `src/app/api/post_status/route.ts` (the `post_status` endpoint),
* `src/lib/activity.ts` (the bounded activity log),
* `src/lib/graph-service.ts` (the dependency-graph cache and builder),
* the JSON-RPC tool adapter (the `/mcp` route) and its branch fallback.

Remote-host access (`lib/github.ts`), the KV client (`lib/kv.ts`), the
parser of imports (`lib/parser.ts`) and the path resolver
(`lib/resolver.ts`) are not part of the available sources; they are abstracted as explicit
state and oracle functions passed to the embedded handlers.
-/

namespace Relay

/-! ## Generic helpers -/

/-- Auxiliary recursion for `dedupFirst` carrying the set of keys already
emitted. -/
def dedupFirstAux (seen : List String) : List String → List String
  | [] => []
  | x :: xs => if x ∈ seen then dedupFirstAux seen xs else x :: dedupFirstAux (x :: seen) xs

/-- Keep the first occurrence of every element, dropping later duplicates.
This is the membership/order semantics of inserting into a JS `Set` and
reading it back with `Array.from` (insertion order, first insertion wins). -/
def dedupFirst (l : List String) : List String := dedupFirstAux [] l

theorem mem_dedupFirstAux {x : String} :
    ∀ (l : List String) (seen : List String),
      x ∈ dedupFirstAux seen l ↔ x ∈ l ∧ x ∉ seen := by
  intro l
  induction l with
  | nil => intro seen; simp [dedupFirstAux]
  | cons a as ih =>
    intro seen
    by_cases ha : a ∈ seen
    · rw [dedupFirstAux, if_pos ha, ih]
      constructor
      · rintro ⟨h1, h2⟩
        exact ⟨List.mem_cons_of_mem _ h1, h2⟩
      · rintro ⟨h1, h2⟩
        rcases List.mem_cons.mp h1 with h1 | h1
        · exact absurd (h1 ▸ ha) h2
        · exact ⟨h1, h2⟩
    · rw [dedupFirstAux, if_neg ha]
      by_cases hxa : x = a
      · subst hxa
        simp [ha]
      · simp only [List.mem_cons, hxa, false_or, ih, List.mem_cons]

theorem mem_dedupFirst {x : String} {l : List String} : x ∈ dedupFirst l ↔ x ∈ l := by
  rw [dedupFirst, mem_dedupFirstAux]
  simp

/-- Association-list lookup keyed by strings; embeds reading a field of a
JS object / Redis hash snapshot. -/
def lookupA {β : Type} : List (String × β) → String → Option β
  | [], _ => none
  | (k, v) :: rest, key => if key = k then some v else lookupA rest key

theorem lookupA_mem {β : Type} {v : β} :
    ∀ {l : List (String × β)} {key : String}, lookupA l key = some v → (key, v) ∈ l := by
  intro l
  induction l with
  | nil => intro key h; simp [lookupA] at h
  | cons kv rest ih =>
    intro key h
    rcases kv with ⟨k, w⟩
    rw [lookupA] at h
    by_cases hk : key = k
    · rw [if_pos hk] at h
      cases h
      exact hk ▸ List.mem_cons_self _ _
    · rw [if_neg hk] at h
      exact List.mem_cons_of_mem _ (ih h)

/-- The semantics of the JavaScript `a || b` fallback chain on strings:
`null`/absent and the empty string are falsy and fall through. -/
def jsOrS (x : Option String) (dflt : String) : String :=
  match x with
  | some s => if s = "" then dflt else s
  | none => dflt

def charsStartsWith : List Char → List Char → Bool
  | [], _ => true
  | _ :: _, [] => false
  | a :: as, b :: bs => a == b && charsStartsWith as bs

def charsContains (needle : List Char) : List Char → Bool
  | [] => charsStartsWith needle []
  | c :: rest => charsStartsWith needle (c :: rest) || charsContains needle rest

/-- JS `hay.includes(needle)`. -/
def strContains (hay needle : String) : Bool :=
  charsContains needle.toList hay.toList

/-- JS `s.endsWith(suffix)`. -/
def strEndsWith (s sfx : String) : Bool :=
  charsStartsWith sfx.toList.reverse s.toList.reverse

/-- JS `String.prototype.trim`: strip leading and trailing whitespace. -/
def jsTrim (s : String) : String :=
  String.mk (((s.toList.dropWhile Char.isWhitespace).reverse.dropWhile
    Char.isWhitespace).reverse)

/-- JS `String.prototype.toLowerCase` on the ASCII range. -/
def toLowerStr (s : String) : String :=
  String.mk (s.toList.map Char.toLower)

/-- `isNonEmptyString` from `lib/validation.ts` callers: a present string
whose trimmed form is non-empty. -/
def isNonEmptyStringO (x : Option String) : Bool :=
  match x with
  | some s => jsTrim s ≠ ""
  | none => false

/-! ## Data model: locks, orchestration, graphs -/

/-- A serialized lock record as stored per file path in the `locks:` hash
(spec section 3; consumed verbatim by both routes). -/
structure LockEntry where
  file_path : String
  user_id : String
  user_name : String
  status : String
  agent_head : String
  message : String
  timestamp : Nat
  expiry : Nat
deriving DecidableEq, Repr

/-- The lock tag added by `check_status` (`lock_type` field). -/
inductive LockType where
  | DIRECT
  | NEIGHBOR
deriving DecidableEq, Repr

/-- A lock as returned by `check_status`: the stored record spread together
with the `user` alias and the `lock_type` tag. -/
structure EnrichedLockEntry where
  entry : LockEntry
  user : String
  lock_type : LockType
deriving DecidableEq, Repr

/-- Orchestration verdicts (`action` field of an orchestration command). -/
inductive Action where
  | PROCEED
  | PULL
  | PUSH
  | WAIT
  | SWITCH_TASK
  | STOP
deriving DecidableEq, Repr

/-- An orchestration command; the `type` field is the constant string
`"orchestration_command"` in every construction site of both routes. -/
structure Orchestration where
  action : Action
  command : Option String
  reason : String
deriving DecidableEq, Repr

/-- A node of the dependency graph (`graph-service.ts`). -/
structure GraphNode where
  id : String
  size : Option Nat
  language : Option String
deriving DecidableEq, Repr

/-- A directed import edge; the TS record carries the constant label
`type: 'import'` on every edge, which we keep as `etype`. -/
structure GraphEdge where
  source : String
  target : String
  etype : String := "import"
deriving DecidableEq, Repr

/-- Graph metadata block (`generated_at`, `files_processed`, `edges_found`). -/
structure GraphMetadata where
  generated_at : Nat
  files_processed : Nat
  edges_found : Nat
deriving DecidableEq, Repr

/-- The dependency graph as serialized to / parsed from the KV store, plus
the lock overlay that `getCached`/`generate` attach before returning. -/
structure DependencyGraph where
  nodes : List GraphNode
  edges : List GraphEdge
  locks : List (String × LockEntry)
  version : String
  metadata : GraphMetadata
deriving DecidableEq, Repr

/-- Outcome of the routes' `GraphService.getCached()` call: a parsed graph,
a cache miss (`null`, which `getCached` also returns on a parse failure),
or a thrown error (caught by the routes' `try`/`catch`). -/
inductive GraphOutcome where
  | ok (g : DependencyGraph)
  | absent
  | err
deriving Repr

/-- The edge list the route can see: empty unless a graph was read. -/
def GraphOutcome.edgesOf : GraphOutcome → List GraphEdge
  | .ok g => g.edges
  | .absent => []
  | .err => []

def GraphOutcome.isOk : GraphOutcome → Bool
  | .ok _ => true
  | _ => false

/-! ## The `check_status` route (src/app/api/check_status/route.ts) -/

/-- Identity extraction of `check_status` (route.ts lines 44-47):
`request.headers.get('x-github-user') || request.headers.get('x-github-username') || ''`.
Note the final fallback is the empty string, not `"anonymous"`. -/
def checkRequestingUser (hUser hUsername : Option String) : String :=
  jsOrS hUser (jsOrS hUsername "")

/-- Direct lock enrichment (route.ts lines 57-68): for each requested path
holding a lock, emit the lock tagged `DIRECT` with the `user` alias.
Assigning twice to the same JS object key is idempotent here (the value
depends only on the path), so duplicates in `file_paths` are dropped. -/
def directEntries (filePaths : List String) (allLocks : List (String × LockEntry)) :
    List (String × EnrichedLockEntry) :=
  (dedupFirst filePaths).filterMap fun p =>
    (lookupA allLocks p).map fun lock => (p, ⟨lock, lock.user_id, LockType.DIRECT⟩)

/-- The neighbor-path candidates in edge order (route.ts lines 77-85): for
each cached edge, the far endpoint of an edge touching a requested path,
skipping endpoints that are themselves requested. -/
def neighborRaw (filePaths : List String) (edges : List GraphEdge) : List String :=
  edges.flatMap fun e =>
    (if e.source ∈ filePaths ∧ e.target ∉ filePaths then [e.target] else []) ++
    (if e.target ∈ filePaths ∧ e.source ∉ filePaths then [e.source] else [])

/-- Neighbor lock enrichment (route.ts lines 87-98): iterate the deduped
neighbor set; skip paths without a lock and paths already enriched.  The
already-enriched check can only match a `DIRECT` entry because neighbor
candidates exclude requested paths and the candidate set holds no
duplicates. -/
def neighborEntries (filePaths : List String) (edges : List GraphEdge)
    (allLocks : List (String × LockEntry)) (direct : List (String × EnrichedLockEntry)) :
    List (String × EnrichedLockEntry) :=
  (dedupFirst (neighborRaw filePaths edges)).filterMap fun p =>
    match lookupA allLocks p with
    | none => none
    | some lock =>
      if (direct.filter (fun q => q.1 = p)) ≠ [] then none
      else some (p, ⟨lock, lock.user_id, LockType.NEIGHBOR⟩)

/-- The full `enrichedLocks` map of `check_status`, in insertion order:
direct entries first (route.ts lines 57-68), then the neighbor overlay
(lines 70-99); the overlay is skipped entirely when the graph cache reads
as absent or throws (the route's `catch`). -/
def checkEnriched (filePaths : List String) (allLocks : List (String × LockEntry))
    (gout : GraphOutcome) : List (String × EnrichedLockEntry) :=
  let direct := directEntries filePaths allLocks
  direct ++ neighborEntries filePaths gout.edgesOf allLocks direct

/-- `conflictingLocks` (route.ts lines 104-106): enriched entries owned by
someone other than the requesting user. -/
def conflictingOf (requestingUser : String) (enriched : List (String × EnrichedLockEntry)) :
    List (String × EnrichedLockEntry) :=
  enriched.filter fun pe => pe.2.entry.user_id ≠ requestingUser

/-- The top-level `status` field (route.ts lines 108-110): `'OK'`, then
overwritten by `'STALE'` when stale, then overwritten by `'CONFLICT'` when
any conflicting lock exists — so CONFLICT takes precedence over STALE. -/
def checkTopStatus (isStale : Bool) (conflicting : List (String × EnrichedLockEntry)) : String :=
  if conflicting ≠ [] then "CONFLICT" else if isStale then "STALE" else "OK"

/-- The `check_status` orchestration (route.ts lines 112-139): PULL when
stale, otherwise SWITCH_TASK on the first conflicting lock, otherwise
PROCEED. -/
def checkOrchestration (isStale : Bool) (repoHead : String)
    (conflicting : List (String × EnrichedLockEntry)) : Orchestration :=
  if isStale then
    { action := Action.PULL, command := some "git pull --rebase"
      reason := "Your local repo is behind. Current HEAD: " ++ repoHead }
  else
    match conflicting with
    | (filePath, firstLock) :: _ =>
      { action := Action.SWITCH_TASK, command := none
        reason := "File '" ++ filePath ++ "' is locked by " ++ firstLock.entry.user_name ++
          " (" ++ (if firstLock.lock_type = LockType.DIRECT then "DIRECT" else "NEIGHBOR") ++ ")" }
    | [] => { action := Action.PROCEED, command := none, reason := "" }

/-- The JSON body of a 200 `check_status` response, with the computed
requesting user and conflict list kept observable. -/
structure CheckResult where
  httpStatus : Nat
  rStatus : String
  repo_head : String
  locks : List (String × EnrichedLockEntry)
  warnings : List String
  orchestration : Orchestration
  requestingUser : String
  conflicting : List (String × EnrichedLockEntry)
deriving Repr

/-- The `check_status` handler after validation (route.ts lines 44-147),
as a function of the request headers, validated body fields, the remote
head, the lock snapshot and the graph-cache outcome. -/
def checkStatusRoute (hUser hUsername : Option String) (branch : String)
    (filePaths : List String) (agentHead repoHead : String)
    (allLocks : List (String × LockEntry)) (gout : GraphOutcome) : CheckResult :=
  let requestingUser := checkRequestingUser hUser hUsername
  let isStale : Bool := agentHead ≠ repoHead
  let enriched := checkEnriched filePaths allLocks gout
  let conflicting := conflictingOf requestingUser enriched
  { httpStatus := 200
    rStatus := checkTopStatus isStale conflicting
    repo_head := repoHead
    locks := enriched
    warnings := if isStale then ["STALE_BRANCH: Your branch is behind origin/" ++ branch] else []
    orchestration := checkOrchestration isStale repoHead conflicting
    requestingUser := requestingUser
    conflicting := conflicting }

/-! ## The `post_status` route (src/app/api/post_status/route.ts) -/

/-- The coordination status enum accepted by `post_status`
(`parseCoordinationStatus`): unknown values are rejected during
validation, before the code embedded here runs. -/
inductive CoordStatus where
  | OPEN
  | READING
  | WRITING
deriving DecidableEq, Repr

def CoordStatus.str : CoordStatus → String
  | .OPEN => "OPEN"
  | .READING => "READING"
  | .WRITING => "WRITING"

/-- Identity extraction of `post_status` (route.ts lines 49-52):
`x-github-user || x-github-username || 'anonymous'`. -/
def postUserId (hUser hUsername : Option String) : String :=
  jsOrS hUser (jsOrS hUsername "anonymous")

/-- Display-name extraction of `post_status` (route.ts lines 53-56):
`x-github-username || x-github-user || 'Anonymous'`. -/
def postUserName (hUser hUsername : Option String) : String :=
  jsOrS hUsername (jsOrS hUser "Anonymous")

/-- The arguments `post_status` passes to `acquireLocks` (route.ts lines
133-142).  The lock registry itself (`lib/locks.ts`) is not among the
available sources; its outcome is supplied as an oracle. -/
structure AcquireArgs where
  filePaths : List String
  userId : String
  userName : String
  status : CoordStatus
  message : String
  agentHead : String
deriving DecidableEq, Repr

/-- Outcome of the `acquireLocks` call, as consumed by the route: either
the list of written lock records, or a failure with `reason`,
`conflictingFile` and `conflictingUser` fields (each possibly absent). -/
inductive AcquireOutcome where
  | ok (locks : List LockEntry)
  | fail (reason conflictingFile conflictingUser : Option String)
deriving Repr

/-- Orphaned-dependency computation of the OPEN branch (route.ts lines
79-98): sources of cached edges whose target is a released path and which
are not themselves released; collected into a JS `Set` in edge order, so
duplicates keep their first occurrence.  On a cache miss or read error the
list stays empty. -/
def orphanedDeps (filePaths : List String) (gout : GraphOutcome) : List String :=
  dedupFirst (gout.edgesOf.filterMap fun e =>
    if e.target ∈ filePaths ∧ e.source ∉ filePaths then some e.source else none)

/-- The JSON body and observable effects of a `post_status` response.
`releaseArgs`/`acquireArgs` record the lock-registry calls the handler
performed (paths and caller identity), `none` when the call never ran. -/
structure PostResult where
  httpStatus : Nat
  success : Option Bool
  errorMsg : Option String
  orchestration : Option Orchestration
  orphaned : Option (List String)
  locksOut : Option (List LockEntry)
  releaseArgs : Option (List String × String)
  acquireArgs : Option AcquireArgs
  userId : String
  userName : String
deriving Repr

/-- JS string interpolation of a possibly-undefined value. -/
def jsShow (x : Option String) : String := x.getD "undefined"

/-- The `post_status` handler after validation (route.ts lines 49-176), as
a function of headers, validated body fields, the remote head and the
oracles for the lock registry and graph cache.

* OPEN with `new_repo_head` and `agent_head` both present and equal
  returns HTTP 400 with `success=false` and a PUSH orchestration, without
  releasing (lines 61-75); otherwise it releases, computes orphaned
  dependencies and returns PROCEED (lines 77-109) — the release result is
  not inspected.
* WRITING requires `agent_head` (line 113), fails stale with PULL (lines
  117-131), then acquires: SWITCH_TASK on failure, PROCEED with the
  written locks on success (lines 133-165).
* READING falls through to the trailing return (lines 168-176): PROCEED
  with no lock-registry call. -/
def postStatusRoute (hUser hUsername : Option String) (filePaths : List String)
    (pstatus : CoordStatus) (message : String) (agentHead newRepoHead : Option String)
    (repoHead : String) (acq : AcquireOutcome) (gout : GraphOutcome) : PostResult :=
  let userId := postUserId hUser hUsername
  let userName := postUserName hUser hUsername
  let base : PostResult :=
    { httpStatus := 200, success := none, errorMsg := none, orchestration := none
      orphaned := none, locksOut := none, releaseArgs := none, acquireArgs := none
      userId := userId, userName := userName }
  match pstatus with
  | CoordStatus.OPEN =>
    if isNonEmptyStringO newRepoHead ∧ isNonEmptyStringO agentHead ∧ newRepoHead = agentHead then
      { base with
        httpStatus := 400
        success := some false
        orchestration := some
          { action := Action.PUSH, command := some "git push"
            reason := "You need to push your changes to advance the repo" } }
    else
      { base with
        success := some true
        releaseArgs := some (filePaths, userId)
        orphaned := some (orphanedDeps filePaths gout)
        orchestration := some
          { action := Action.PROCEED, command := none
            reason := "Locks released successfully" } }
  | CoordStatus.WRITING =>
    if ¬ isNonEmptyStringO agentHead then
      { base with httpStatus := 400, errorMsg := some "Missing required fields" }
    else if agentHead ≠ some repoHead then
      { base with
        success := some false
        orchestration := some
          { action := Action.PULL, command := some "git pull --rebase"
            reason := "Your local repo is behind remote" } }
    else
      let args : AcquireArgs :=
        { filePaths := filePaths, userId := userId, userName := userName
          status := pstatus, message := message, agentHead := agentHead.getD "" }
      match acq with
      | AcquireOutcome.fail r cf cu =>
        let rs := jsShow r
        let cfs := jsShow cf
        let cus := jsShow cu
        { base with
          success := some false
          acquireArgs := some args
          orchestration := some
            { action := Action.SWITCH_TASK, command := none
              reason := rs ++ ": " ++ cfs ++ " locked by " ++ cus } }
      | AcquireOutcome.ok locks =>
        { base with
          success := some true
          acquireArgs := some args
          locksOut := some locks
          orchestration := some
            { action := Action.PROCEED, command := none
              reason := "Locks acquired successfully" } }
  | CoordStatus.READING =>
    { base with
      success := some true
      orchestration := some
        { action := Action.PROCEED, command := none
          reason := "Reading status recorded" } }

/-! ## The activity log (src/lib/activity.ts) -/

/-- A coordination activity event (`CoordinationActivityEvent`). -/
structure ActivityEvent where
  id : String
  file_path : String
  user_id : String
  user_name : String
  status : CoordStatus
  message : String
  timestamp : Nat
deriving DecidableEq, Repr

/-- `MAX_ACTIVITY_RETENTION` (activity.ts line 28). -/
def MAX_ACTIVITY_RETENTION : Nat := 500

/-- `DEFAULT_ACTIVITY_LIMIT` (activity.ts line 27). -/
def DEFAULT_ACTIVITY_LIMIT : Nat := 120

/-- The event payloads built by `publishActivityEvents` (activity.ts lines
83-94), one per file path, with the positional index baked into the id. -/
def mkActivityEvents (ts : Nat) (userId userName : String) (status : CoordStatus)
    (message : String) : Nat → List String → List ActivityEvent
  | _, [] => []
  | i, fp :: rest =>
    { id := toString ts ++ ":" ++ userId ++ ":" ++ status.str ++ ":" ++ fp ++ ":" ++ toString i
      file_path := fp, user_id := userId, user_name := userName
      status := status, message := message, timestamp := ts }
      :: mkActivityEvents ts userId userName status message (i + 1) rest

/-- `publishActivityEvents` (activity.ts lines 67-98) acting on the
newest-first per-namespace list: no-op on an empty path list; otherwise
`LPUSH` of all payloads (each prepended in turn, so the batch lands
reversed at the head) followed by `LTRIM 0 (500-1)`. -/
def publishActivityEvents (ts : Nat) (userId userName : String) (status : CoordStatus)
    (message : String) (filePaths : List String) (old : List ActivityEvent) :
    List ActivityEvent :=
  if filePaths = [] then old
  else
    List.take MAX_ACTIVITY_RETENTION
      ((mkActivityEvents ts userId userName status message 0 filePaths).reverse ++ old)

/-- `getRecentActivityEvents` (activity.ts lines 100-127): `LRANGE 0
(safeLimit-1)` with `safeLimit = max 1 limit`, then reverse so consumers
receive oldest-first. -/
def getRecentActivityEvents (lim : Nat) (st : List ActivityEvent) : List ActivityEvent :=
  (st.take (max 1 lim)).reverse

/-- Modelled from the spec: the activity-wired copy of the `post_status`
route is not among the available sources (only its expectations in
`tests/routes.test.ts` are); per the spec, every successful state-changing
`post_status` publishes one activity event per affected file through
`publishActivityEvents`. -/
def postStatusActivityPublish (ts : Nat) (userId userName : String) (status : CoordStatus)
    (message : String) (filePaths : List String) (old : List ActivityEvent) :
    List ActivityEvent :=
  publishActivityEvents ts userId userName status message filePaths old

/-! ## The JSON-RPC tool adapter (the `/mcp` route) -/

/-- `DEFAULT_MCP_BRANCH`. -/
def MCP_DEFAULT_BRANCH : String := "master"

/-- `FALLBACK_MCP_BRANCH`. -/
def MCP_FALLBACK_BRANCH : String := "main"

/-- An internal `check_status`/`post_status` call outcome as the adapter
observes it: the HTTP status and the message `extractErrorMessage` pulls
out of the payload (`details`, `error` or `reason`). -/
structure InternalResponse where
  status : Nat
  message : String
deriving DecidableEq, Repr

/-- `shouldRetryOnMissingBranchReference` (mcp route): a 404 or 500 whose
extracted message, lowercased, names a missing git reference. -/
def shouldRetryOnMissingBranchReference (r : InternalResponse) : Bool :=
  (r.status == 404 || r.status == 500) &&
    (strContains (toLowerStr r.message) "git/refs#get-a-reference" ||
     strContains (toLowerStr r.message) "reference does not exist" ||
     strContains (toLowerStr r.message) "not found")

/-- `resolveBranch` (mcp route): a non-blank supplied branch is trimmed
and marked as provided; anything else falls back to `"master"`. -/
structure BranchResolution where
  branch : String
  wasProvided : Bool
deriving DecidableEq, Repr

def resolveBranch (value : Option String) : BranchResolution :=
  match value with
  | some s => if jsTrim s ≠ "" then ⟨jsTrim s, true⟩ else ⟨MCP_DEFAULT_BRANCH, false⟩
  | none => ⟨MCP_DEFAULT_BRANCH, false⟩

/-- The branches actually called and the response finally used. -/
structure AdapterOutcome where
  branchesCalled : List String
  response : InternalResponse
deriving DecidableEq, Repr

/-- The shared branch-fallback skeleton of `callCheckStatusTool` and
`callPostStatusTool`: call on the resolved branch; if the branch argument
was not supplied, the response carries a branch-not-found signal and the
branch in use is not already `"main"`, retry exactly once on `"main"` and
use the second response.  `call` abstracts the internal fetch, which
depends only on the branch here (all other body fields are fixed). -/
def callToolWithBranchFallback (argBranch : Option String)
    (call : String → InternalResponse) : AdapterOutcome :=
  let res := resolveBranch argBranch
  let firstResp := call res.branch
  if res.wasProvided = false ∧ shouldRetryOnMissingBranchReference firstResp = true ∧
      res.branch ≠ MCP_FALLBACK_BRANCH then
    { branchesCalled := [res.branch, MCP_FALLBACK_BRANCH]
      response := call MCP_FALLBACK_BRANCH }
  else
    { branchesCalled := [res.branch], response := firstResp }

/-! ## The graph cache and builder (src/lib/graph-service.ts) -/

/-- The node comparator of `generate` (graph-service.ts line 231):
`a.id.localeCompare(b.id)`, modelled as the lexicographic order on
strings. -/
def nodeLeR (a b : GraphNode) : Prop := a.id ≤ b.id

instance : DecidableRel nodeLeR := fun a b => inferInstanceAs (Decidable (a.id ≤ b.id))

instance : IsTotal GraphNode nodeLeR := ⟨fun a b => le_total a.id b.id⟩

instance : IsTrans GraphNode nodeLeR := ⟨fun _ _ _ h1 h2 => le_trans h1 h2⟩

/-- The edge comparator of `generate` (graph-service.ts lines 232-238):
by `source`, then by `target`. -/
def edgeLeR (a b : GraphEdge) : Prop :=
  a.source < b.source ∨ (a.source = b.source ∧ a.target ≤ b.target)

instance : DecidableRel edgeLeR := fun a b =>
  inferInstanceAs (Decidable (a.source < b.source ∨ (a.source = b.source ∧ a.target ≤ b.target)))

instance : IsTotal GraphEdge edgeLeR := ⟨by
  intro a b
  rcases lt_trichotomy a.source b.source with h | h | h
  · exact Or.inl (Or.inl h)
  · rcases le_total a.target b.target with h2 | h2
    · exact Or.inl (Or.inr ⟨h, h2⟩)
    · exact Or.inr (Or.inr ⟨h.symm, h2⟩)
  · exact Or.inr (Or.inl h)⟩

instance : IsTrans GraphEdge edgeLeR := ⟨by
  intro a b c hab hbc
  rcases hab with hab | ⟨hab1, hab2⟩
  · rcases hbc with hbc | ⟨hbc1, hbc2⟩
    · exact Or.inl (lt_trans hab hbc)
    · exact Or.inl (hbc1 ▸ hab)
  · rcases hbc with hbc | ⟨hbc1, hbc2⟩
    · exact Or.inl (hab1 ▸ hbc)
    · exact Or.inr ⟨hab1.trans hbc1, le_trans hab2 hbc2⟩⟩

/-- A blob entry of the recursive tree listing (blobs only, with path,
sha and size), as consumed by `generate` after filtering. -/
structure RemoteFile where
  path : String
  sha : String
  size : Option Nat
deriving DecidableEq, Repr

/-- The remote host as `generate` sees it during one build: the branch
head, the recursive tree at that head, and the per-file oracles standing
in for `getFileLanguage` (lib/parser.ts) and for the composition of
`parseImports` with `ImportResolver.resolve` (lib/parser.ts and
lib/resolver.ts, neither among the available sources): `importsOf p` is
the list of repo-relative paths the resolver yields for file `p`, kept in
the order the imports appear. -/
structure RemoteRepo where
  head : String
  tree : List RemoteFile
  lang : String → Option String
  importsOf : String → List String

/-- The three per-namespace graph keys: the serialized graph blob (with a
parse failure collapsed to `none`, as `getCached` does), the stored head
commit and the file-SHA hash. -/
structure KvGraphState where
  graphBlob : Option DependencyGraph
  meta : Option String
  fileShas : List (String × String)

/-- A build returns the graph handed to the caller and the KV state it
committed. -/
structure GenerateResult where
  graph : DependencyGraph
  kv : KvGraphState

/-- `supportedExtensions` (graph-service.ts line 113). -/
def supportedExtensions : List String := [".ts", ".tsx", ".js", ".jsx", ".py"]

def hasSupportedExt (p : String) : Bool :=
  supportedExtensions.any fun e => strEndsWith p e

/-- Redis `HDEL` of several fields. -/
def hdelAll (m : List (String × String)) (keys : List String) : List (String × String) :=
  m.filter fun kv => kv.1 ∉ keys

/-- Redis `HSET` of a batch of fields: overwrites existing fields, adds
the rest. -/
def hsetAll (m : List (String × String)) (upd : List (String × String)) :
    List (String × String) :=
  (m.filter fun kv => (lookupA upd kv.1).isNone) ++ upd

/-- `${source}=>${target}`, the dedup key of the edge set. -/
def edgeKey (s t : String) : String := s ++ "=>" ++ t

/-- Build-loop accumulator: nodes, edges, the edge dedup set and
`processedCount`. -/
structure BuildAcc where
  nodes : List GraphNode
  edges : List GraphEdge
  edgeKeys : List String
  processed : Nat

/-- The inner import loop (graph-service.ts lines 206-217): append one
edge per resolved import, deduplicated by `source=>target`. -/
def addImportEdges (src : String) : List String → List GraphEdge → List String →
    List GraphEdge × List String
  | [], edges, keys => (edges, keys)
  | t :: ts, edges, keys =>
    let k := edgeKey src t
    if k ∈ keys then addImportEdges src ts edges keys
    else addImportEdges src ts (edges ++ [{ source := src, target := t }]) (keys ++ [k])

/-- One iteration of the file loop (graph-service.ts lines 175-224): push
the node if missing, then — unless the language is unknown — add the
resolved import edges and count the file as processed.  Per-file fetch
failures are logged and skipped in the source; the embedding models the
successful fetch path. -/
def processFile (remote : RemoteRepo) (acc : BuildAcc) (f : RemoteFile) : BuildAcc :=
  let nodes1 :=
    if acc.nodes.any fun n => n.id = f.path then acc.nodes
    else acc.nodes ++ [{ id := f.path, size := f.size, language := remote.lang f.path }]
  match remote.lang f.path with
  | none => { acc with nodes := nodes1 }
  | some _ =>
    let res := addImportEdges f.path (remote.importsOf f.path) acc.edges acc.edgeKeys
    { nodes := nodes1, edges := res.1, edgeKeys := res.2, processed := acc.processed + 1 }

/-- The body of `generate` past the head short-circuit (graph-service.ts
lines 106-270): filter the tree, diff against the stored SHA map, prune
and optionally reset the existing graph, process the touched files, sort,
and commit graph + meta + SHA map together.  The `length > 0` guards
around the pruning steps in the source only skip no-op filters. -/
def buildGraph (now : Nat) (remote : RemoteRepo) (kv : KvGraphState)
    (locksNow : List (String × LockEntry)) : GenerateResult :=
  let currentHead := remote.head
  let files := remote.tree.filter fun f => hasSupportedExt f.path
  let storedShas := kv.fileShas
  let allFilePaths := files.map fun f => f.path
  let newFiles := files.filter fun f => (lookupA storedShas f.path).isNone
  let changedFiles := files.filter fun f =>
    match lookupA storedShas f.path with
    | some s => s ≠ f.sha
    | none => false
  let deletedFiles := (storedShas.map fun kv2 => kv2.1).filter fun p => p ∉ allFilePaths
  let hasExistingGraph := kv.graphBlob.isSome
  let nodes0 : List GraphNode := match kv.graphBlob with | some g => g.nodes | none => []
  let edges0 : List GraphEdge := match kv.graphBlob with | some g => g.edges | none => []
  let nodes1 : List GraphNode := nodes0.filter fun n => n.id ∉ deletedFiles
  let changedSet := changedFiles.map fun f => f.path
  let edges1 :=
    (edges0.filter fun e => e.source ∉ deletedFiles ∧ e.target ∉ deletedFiles).filter
      fun e => e.source ∉ changedSet
  let incrementalFiles := newFiles ++ changedFiles
  let needsFullRebuild : Bool :=
    !hasExistingGraph ||
      (decide (files ≠ []) && decide (nodes1 = []) && decide (incrementalFiles = []))
  let startNodes := if needsFullRebuild then [] else nodes1
  let startEdges := if needsFullRebuild then [] else edges1
  let filesToProcess := if needsFullRebuild then files else incrementalFiles
  let acc0 : BuildAcc :=
    { nodes := startNodes, edges := startEdges
      edgeKeys := startEdges.map fun e => edgeKey e.source e.target, processed := 0 }
  let acc := filesToProcess.foldl (processFile remote) acc0
  let nodesS := List.insertionSort nodeLeR acc.nodes
  let edgesS := List.insertionSort edgeLeR acc.edges
  let newShas := files.map fun f => (f.path, f.sha)
  let graphStored : DependencyGraph :=
    { nodes := nodesS, edges := edgesS, locks := [], version := currentHead
      metadata :=
        { generated_at := now, files_processed := acc.processed
          edges_found := edgesS.length } }
  { graph := { graphStored with locks := locksNow }
    kv :=
      { graphBlob := some graphStored, meta := some currentHead
        fileShas := hsetAll (hdelAll storedShas deletedFiles) newShas } }

/-- `GraphService.generate` (graph-service.ts lines 90-270): unless forced,
a stored head equal to the current remote head together with a readable
cached graph short-circuits the build and returns the stored graph under a
fresh lock overlay; every other case runs the build. -/
def generate (force : Bool) (now : Nat) (remote : RemoteRepo) (kv : KvGraphState)
    (locksNow : List (String × LockEntry)) : GenerateResult :=
  match force, kv.graphBlob with
  | false, some g =>
    if kv.meta = some remote.head then { graph := { g with locks := locksNow }, kv := kv }
    else buildGraph now remote kv locksNow
  | _, _ => buildGraph now remote kv locksNow

/-- Well-formedness of the graph keys: any readable blob was committed
together with its meta head and is sorted.  Every state `generate` writes
satisfies this; it rules out hand-corrupted blobs when reasoning about the
short-circuit path. -/
def KvWF (kv : KvGraphState) : Prop :=
  ∀ g, kv.graphBlob = some g →
    kv.meta = some g.version ∧ List.Sorted nodeLeR g.nodes ∧ List.Sorted edgeLeR g.edges

/-! ## Claim C2 -/

/-- Claim C2 fails on the code at this input: a `post_status` OPEN request
with `new_repo_head = agent_head = "abc"` is answered with HTTP status
400, not the claimed 200. -/
theorem c2_counterexample :
    (postStatusRoute (some "agent") (some "agent") ["src/a.ts"] CoordStatus.OPEN "done"
      (some "abc") (some "abc") "abc" (AcquireOutcome.ok []) GraphOutcome.absent).httpStatus
      = 400 ∧ (400 : Nat) ≠ 200 := by
  exact ⟨rfl, by decide⟩

/-- Claim C2 (amended): for every `post_status` request with status OPEN
where `new_repo_head` and `agent_head` are both present and equal, the
service responds with `success=false` and a PUSH orchestration and
performs no lock release — but the HTTP status of this response is 400,
not 200: the push-needed business outcome is surfaced as an HTTP error
code here. -/
theorem c2_amended (hUser hUsername : Option String) (filePaths : List String)
    (message : String) (agentHead newRepoHead : Option String) (repoHead : String)
    (acq : AcquireOutcome) (gout : GraphOutcome)
    (h1 : isNonEmptyStringO newRepoHead = true) (h2 : isNonEmptyStringO agentHead = true)
    (h3 : newRepoHead = agentHead) :
    (postStatusRoute hUser hUsername filePaths CoordStatus.OPEN message agentHead newRepoHead
        repoHead acq gout).httpStatus = 400 ∧
    (postStatusRoute hUser hUsername filePaths CoordStatus.OPEN message agentHead newRepoHead
        repoHead acq gout).success = some false ∧
    (postStatusRoute hUser hUsername filePaths CoordStatus.OPEN message agentHead newRepoHead
        repoHead acq gout).orchestration.map Orchestration.action = some Action.PUSH ∧
    (postStatusRoute hUser hUsername filePaths CoordStatus.OPEN message agentHead newRepoHead
        repoHead acq gout).releaseArgs = none := by
  simp [postStatusRoute, h1, h2, h3]

/-- Witness for `c2_amended` at the concrete counterexample input. -/
theorem c2_witness :
    (postStatusRoute none none ["src/a.ts"] CoordStatus.OPEN "done" (some "abc") (some "abc")
        "abc" (AcquireOutcome.ok []) GraphOutcome.absent).httpStatus = 400 ∧
    (postStatusRoute none none ["src/a.ts"] CoordStatus.OPEN "done" (some "abc") (some "abc")
        "abc" (AcquireOutcome.ok []) GraphOutcome.absent).success = some false ∧
    (postStatusRoute none none ["src/a.ts"] CoordStatus.OPEN "done" (some "abc") (some "abc")
        "abc" (AcquireOutcome.ok []) GraphOutcome.absent).orchestration.map Orchestration.action
      = some Action.PUSH ∧
    (postStatusRoute none none ["src/a.ts"] CoordStatus.OPEN "done" (some "abc") (some "abc")
        "abc" (AcquireOutcome.ok []) GraphOutcome.absent).releaseArgs = none :=
  c2_amended none none ["src/a.ts"] "done" (some "abc") (some "abc") "abc"
    (AcquireOutcome.ok []) GraphOutcome.absent (by decide) (by decide) rfl

/-! ## Claim C3 -/

/-- Claim C3 is contradicted by the code: at a READING `post_status`
request (the failing input of the repository's own test, which expects the
acquire path to run), the handler returns 200/`success=true`/PROCEED
without ever calling `acquireLocks` — `acquireArgs` stays `none`, so an
acquire failure can never produce SWITCH_TASK. -/
theorem c3_code_divergence :
    (postStatusRoute (some "reader") (some "reader") ["src/readme.ts"] CoordStatus.READING
      "reviewing" (some "remote-head") none "remote-head" (AcquireOutcome.ok [])
      GraphOutcome.absent).httpStatus = 200 ∧
    (postStatusRoute (some "reader") (some "reader") ["src/readme.ts"] CoordStatus.READING
      "reviewing" (some "remote-head") none "remote-head" (AcquireOutcome.ok [])
      GraphOutcome.absent).success = some true ∧
    (postStatusRoute (some "reader") (some "reader") ["src/readme.ts"] CoordStatus.READING
      "reviewing" (some "remote-head") none "remote-head" (AcquireOutcome.ok [])
      GraphOutcome.absent).orchestration.map Orchestration.action = some Action.PROCEED ∧
    (postStatusRoute (some "reader") (some "reader") ["src/readme.ts"] CoordStatus.READING
      "reviewing" (some "remote-head") none "remote-head" (AcquireOutcome.ok [])
      GraphOutcome.absent).acquireArgs = none := by
  refine ⟨rfl, rfl, rfl, rfl⟩

/-! ## Claim C6 -/

/-- Claim C6 fails on the code at this input: with both identity headers
absent, the `check_status` handler resolves the requesting user to the
empty string, not to `"anonymous"`. -/
theorem c6_counterexample :
    (checkStatusRoute none none "main" ["src/a.ts"] "h" "h" []
        GraphOutcome.absent).requestingUser = "" ∧
    (checkStatusRoute none none "main" ["src/a.ts"] "h" "h" []
        GraphOutcome.absent).requestingUser ≠ "anonymous" := by
  exact ⟨rfl, by decide⟩

/-- Claim C6 (amended): `post_status` resolves the caller identity by
trying `x-github-user`, then `x-github-username`, then `"anonymous"`, and
the display name by the reverse header preference (with final fallback
`"Anonymous"`); these resolved values are what the acquire path receives.
`check_status`, however, falls back to the empty string — not
`"anonymous"` — and computes no display name. -/
theorem c6_amended (hUser hUsername : Option String) (branch : String)
    (filePaths : List String) (agentHead repoHead : String)
    (allLocks : List (String × LockEntry)) (gout : GraphOutcome) (message : String)
    (acq : AcquireOutcome) (hRH : jsTrim repoHead ≠ "") :
    (checkStatusRoute hUser hUsername branch filePaths agentHead repoHead allLocks
        gout).requestingUser = jsOrS hUser (jsOrS hUsername "") ∧
    (postStatusRoute hUser hUsername filePaths CoordStatus.WRITING message (some repoHead)
        none repoHead acq gout).userId = jsOrS hUser (jsOrS hUsername "anonymous") ∧
    (postStatusRoute hUser hUsername filePaths CoordStatus.WRITING message (some repoHead)
        none repoHead acq gout).userName = jsOrS hUsername (jsOrS hUser "Anonymous") ∧
    (∃ args, (postStatusRoute hUser hUsername filePaths CoordStatus.WRITING message
        (some repoHead) none repoHead acq gout).acquireArgs = some args ∧
      args.userId = jsOrS hUser (jsOrS hUsername "anonymous") ∧
      args.userName = jsOrS hUsername (jsOrS hUser "Anonymous")) := by
  refine ⟨rfl, ?_, ?_, ?_⟩
  · cases acq <;> simp [postStatusRoute, postUserId, isNonEmptyStringO, hRH]
  · cases acq <;> simp [postStatusRoute, postUserName, isNonEmptyStringO, hRH]
  · cases acq <;>
      simp [postStatusRoute, postUserId, postUserName, isNonEmptyStringO, hRH]

/-- Witness for `c6_amended` with both headers missing. -/
theorem c6_witness :
    (checkStatusRoute none none "main" ["src/a.ts"] "h" "h" []
        GraphOutcome.absent).requestingUser = jsOrS none (jsOrS none "") ∧
    (postStatusRoute none none ["src/a.ts"] CoordStatus.WRITING "work" (some "h") none "h"
        (AcquireOutcome.ok []) GraphOutcome.absent).userId
      = jsOrS none (jsOrS none "anonymous") ∧
    (postStatusRoute none none ["src/a.ts"] CoordStatus.WRITING "work" (some "h") none "h"
        (AcquireOutcome.ok []) GraphOutcome.absent).userName
      = jsOrS none (jsOrS none "Anonymous") ∧
    (∃ args, (postStatusRoute none none ["src/a.ts"] CoordStatus.WRITING "work" (some "h")
        none "h" (AcquireOutcome.ok []) GraphOutcome.absent).acquireArgs = some args ∧
      args.userId = jsOrS none (jsOrS none "anonymous") ∧
      args.userName = jsOrS none (jsOrS none "Anonymous")) :=
  c6_amended none none "main" ["src/a.ts"] "h" "h" [] GraphOutcome.absent "work"
    (AcquireOutcome.ok []) (by decide)

/-! ## Claim C7 -/

/-- Claim C7: when the agent omits `branch`, the adapter first forwards
`"master"`; if and only if that internal call fails with a branch-not-found
signal does it retry, exactly once, with `"main"`, returning the second
response; a supplied (non-blank) branch is forwarded as given with no
retry, and no call sequence ever exceeds two calls. -/
theorem c7_branch_fallback (call : String → InternalResponse) :
    ((callToolWithBranchFallback none call).branchesCalled.head? = some MCP_DEFAULT_BRANCH) ∧
    (shouldRetryOnMissingBranchReference (call MCP_DEFAULT_BRANCH) = true →
      (callToolWithBranchFallback none call).branchesCalled
          = [MCP_DEFAULT_BRANCH, MCP_FALLBACK_BRANCH] ∧
      (callToolWithBranchFallback none call).response = call MCP_FALLBACK_BRANCH) ∧
    (shouldRetryOnMissingBranchReference (call MCP_DEFAULT_BRANCH) = false →
      (callToolWithBranchFallback none call).branchesCalled = [MCP_DEFAULT_BRANCH] ∧
      (callToolWithBranchFallback none call).response = call MCP_DEFAULT_BRANCH) ∧
    (∀ b : String, jsTrim b ≠ "" →
      (callToolWithBranchFallback (some b) call).branchesCalled = [jsTrim b] ∧
      (callToolWithBranchFallback (some b) call).response = call (jsTrim b)) ∧
    (∀ ab : Option String, (callToolWithBranchFallback ab call).branchesCalled.length ≤ 2) := by
  refine ⟨?_, ?_, ?_, ?_, ?_⟩
  · simp only [callToolWithBranchFallback, resolveBranch, MCP_DEFAULT_BRANCH,
      MCP_FALLBACK_BRANCH]
    split <;> simp
  · intro h
    simp only [MCP_DEFAULT_BRANCH] at h
    simp [callToolWithBranchFallback, resolveBranch, MCP_DEFAULT_BRANCH,
      MCP_FALLBACK_BRANCH, h]
  · intro h
    simp only [MCP_DEFAULT_BRANCH] at h
    simp [callToolWithBranchFallback, resolveBranch, MCP_DEFAULT_BRANCH,
      MCP_FALLBACK_BRANCH, h]
  · intro b hb
    constructor <;> simp [callToolWithBranchFallback, resolveBranch, hb]
  · intro ab
    rcases ab with _ | b
    · simp only [callToolWithBranchFallback, resolveBranch, MCP_DEFAULT_BRANCH,
        MCP_FALLBACK_BRANCH]
      split <;> simp
    · by_cases hb : jsTrim b ≠ ""
      · simp [callToolWithBranchFallback, resolveBranch, hb]
      · simp only [callToolWithBranchFallback, resolveBranch, hb, if_neg,
          MCP_DEFAULT_BRANCH, MCP_FALLBACK_BRANCH]
        split <;> split <;> simp

/-- Witness for `c7_branch_fallback`: a deployment whose internal call
404s with a missing-reference message on `"master"` and succeeds on
`"main"`. -/
theorem c7_witness :
    (callToolWithBranchFallback none
        (fun b => if b = "master" then { status := 500, message := "Not Found" }
          else { status := 200, message := "" })).branchesCalled = ["master", "main"] ∧
    (callToolWithBranchFallback none
        (fun b => if b = "master" then { status := 500, message := "Not Found" }
          else { status := 200, message := "" })).response
      = { status := 200, message := "" } := by
  have h := (c7_branch_fallback
    (fun b => if b = "master" then { status := 500, message := "Not Found" }
      else { status := 200, message := "" })).2.1 (by decide)
  exact ⟨h.1, h.2⟩

/-! ## Claim C5 -/

/-- Claim C5: an OPEN `post_status` that reaches the release path returns
exactly the set of files `g` with a cached edge `g → f` into some released
path `f` and `g` itself not released; released paths never appear. -/
theorem c5_orphaned_dependencies (hUser hUsername : Option String) (filePaths : List String)
    (message : String) (agentHead newRepoHead : Option String) (repoHead : String)
    (acq : AcquireOutcome) (g : DependencyGraph)
    (hPush : ¬ (isNonEmptyStringO newRepoHead = true ∧ isNonEmptyStringO agentHead = true ∧
      newRepoHead = agentHead)) :
    ∃ os, (postStatusRoute hUser hUsername filePaths CoordStatus.OPEN message agentHead
        newRepoHead repoHead acq (GraphOutcome.ok g)).orphaned = some os ∧
      (∀ x, x ∈ os ↔
        ((∃ e ∈ g.edges, e.source = x ∧ e.target ∈ filePaths) ∧ x ∉ filePaths)) ∧
      (∀ x ∈ filePaths, x ∉ os) := by
  refine ⟨orphanedDeps filePaths (GraphOutcome.ok g), ?_, ?_, ?_⟩
  · simp only [postStatusRoute]
    rw [if_neg]
    intro hc
    exact hPush ⟨hc.1, hc.2.1, hc.2.2⟩
  · intro x
    simp only [orphanedDeps, mem_dedupFirst, List.mem_filterMap, GraphOutcome.edgesOf]
    constructor
    · rintro ⟨e, he, hx⟩
      by_cases hc : e.target ∈ filePaths ∧ e.source ∉ filePaths
      · rw [if_pos hc] at hx
        cases hx
        exact ⟨⟨e, he, rfl, hc.1⟩, hc.2⟩
      · rw [if_neg hc] at hx
        cases hx
    · rintro ⟨⟨e, he, hsrc, htgt⟩, hnot⟩
      refine ⟨e, he, ?_⟩
      rw [if_pos ⟨htgt, hsrc ▸ hnot⟩]
      rw [hsrc]
  · intro x hx hmem
    simp only [orphanedDeps, mem_dedupFirst, List.mem_filterMap, GraphOutcome.edgesOf] at hmem
    rcases hmem with ⟨e, _, hsome⟩
    by_cases hc : e.target ∈ filePaths ∧ e.source ∉ filePaths
    · rw [if_pos hc] at hsome
      cases hsome
      exact hc.2 hx
    · rw [if_neg hc] at hsome
      cases hsome

/-- Witness for `c5_orphaned_dependencies` on the spec's own example:
edges `src/app.ts → src/auth.ts`, `src/auth.ts → src/util.ts`, releasing
`src/auth.ts`; `src/app.ts` is orphaned and `src/auth.ts` is not. -/
theorem c5_witness :
    ∃ os, (postStatusRoute (some "agent-user") none ["src/auth.ts"] CoordStatus.OPEN "done"
        none none "remote-head" (AcquireOutcome.ok [])
        (GraphOutcome.ok
          { nodes := [], edges :=
              [{ source := "src/app.ts", target := "src/auth.ts" },
               { source := "src/auth.ts", target := "src/util.ts" }]
            locks := [], version := "v1"
            metadata := { generated_at := 1, files_processed := 2, edges_found := 2 } })).orphaned
        = some os ∧
      "src/app.ts" ∈ os ∧ "src/auth.ts" ∉ os := by
  have h := c5_orphaned_dependencies (some "agent-user") none ["src/auth.ts"] "done"
    none none "remote-head" (AcquireOutcome.ok [])
    { nodes := [], edges :=
        [{ source := "src/app.ts", target := "src/auth.ts" },
         { source := "src/auth.ts", target := "src/util.ts" }]
      locks := [], version := "v1"
      metadata := { generated_at := 1, files_processed := 2, edges_found := 2 } }
    (by intro hc; exact absurd hc.1 (by decide))
  rcases h with ⟨os, hos, hiff, hrel⟩
  refine ⟨os, hos, ?_, hrel "src/auth.ts" (by decide)⟩
  exact (hiff "src/app.ts").mpr (by
    refine ⟨⟨{ source := "src/app.ts", target := "src/auth.ts" }, by decide, rfl, by decide⟩,
      by decide⟩)

/-! ## Claim C1 -/

/-- Claim C1 fails on the code at this input: a stale `check_status`
(`agent_head = "LOCAL"` versus remote `"REMOTE"`) with a conflicting
direct lock does not report top-level status `"STALE"` — the conflict
overwrites it. -/
theorem c1_counterexample :
    ("LOCAL" : String) ≠ "REMOTE" ∧
    (checkStatusRoute (some "user-2") none "main" ["src/a.ts"] "LOCAL" "REMOTE"
        [("src/a.ts",
          { file_path := "src/a.ts", user_id := "user-1", user_name := "User One"
            status := "WRITING", agent_head := "REMOTE", message := "work"
            timestamp := 100, expiry := 200 })]
        GraphOutcome.absent).rStatus ≠ "STALE" ∧
    (checkStatusRoute (some "user-2") none "main" ["src/a.ts"] "LOCAL" "REMOTE"
        [("src/a.ts",
          { file_path := "src/a.ts", user_id := "user-1", user_name := "User One"
            status := "WRITING", agent_head := "REMOTE", message := "work"
            timestamp := 100, expiry := 200 })]
        GraphOutcome.absent).rStatus = "CONFLICT" := by
  refine ⟨by decide, ?_, rfl⟩
  intro h
  exact absurd h (by decide)

/-- Claim C1 (amended): whenever `agent_head` differs from the remote
head, the orchestration action is PULL regardless of lock state; the
top-level status is `"STALE"` only when no conflicting lock exists — a
conflicting lock overwrites it to `"CONFLICT"` (precedence CONFLICT over
STALE for the top-level field). -/
theorem c1_amended (hUser hUsername : Option String) (branch : String)
    (filePaths : List String) (agentHead repoHead : String)
    (allLocks : List (String × LockEntry)) (gout : GraphOutcome)
    (hStale : agentHead ≠ repoHead) :
    (checkStatusRoute hUser hUsername branch filePaths agentHead repoHead allLocks
        gout).orchestration.action = Action.PULL ∧
    ((checkStatusRoute hUser hUsername branch filePaths agentHead repoHead allLocks
        gout).conflicting = [] →
      (checkStatusRoute hUser hUsername branch filePaths agentHead repoHead allLocks
        gout).rStatus = "STALE") ∧
    ((checkStatusRoute hUser hUsername branch filePaths agentHead repoHead allLocks
        gout).conflicting ≠ [] →
      (checkStatusRoute hUser hUsername branch filePaths agentHead repoHead allLocks
        gout).rStatus = "CONFLICT") := by
  refine ⟨?_, ?_, ?_⟩
  · simp [checkStatusRoute, checkOrchestration, hStale]
  · intro h
    simp only [checkStatusRoute] at h ⊢
    simp [checkTopStatus, h, hStale]
  · intro h
    simp only [checkStatusRoute] at h ⊢
    simp [checkTopStatus, h, hStale]

/-- Witness for `c1_amended`: stale head, no locks at all. -/
theorem c1_witness :
    (checkStatusRoute (some "u") none "main" ["src/a.ts"] "LOCAL" "REMOTE" []
        GraphOutcome.absent).orchestration.action = Action.PULL ∧
    (checkStatusRoute (some "u") none "main" ["src/a.ts"] "LOCAL" "REMOTE" []
        GraphOutcome.absent).rStatus = "STALE" := by
  have h := c1_amended (some "u") none "main" ["src/a.ts"] "LOCAL" "REMOTE" []
    GraphOutcome.absent (by decide)
  exact ⟨h.1, h.2.1 (by decide)⟩

/-! ## Claim C4 -/

/-- Adjacency in the cached graph with edges read undirected:
`source → target` or `target → source` touches a requested path. -/
def AdjacentUndirected (filePaths : List String) (edges : List GraphEdge) (p : String) : Prop :=
  ∃ ed ∈ edges, (ed.source ∈ filePaths ∧ ed.target = p) ∨ (ed.target ∈ filePaths ∧ ed.source = p)

theorem mem_directEntries {filePaths : List String} {allLocks : List (String × LockEntry)}
    {p : String} {e : EnrichedLockEntry} :
    (p, e) ∈ directEntries filePaths allLocks ↔
      p ∈ filePaths ∧ ∃ l, lookupA allLocks p = some l ∧
        e = ⟨l, l.user_id, LockType.DIRECT⟩ := by
  simp only [directEntries, List.mem_filterMap, mem_dedupFirst, Option.map_eq_some']
  constructor
  · rintro ⟨a, ha, l, hl, heq⟩
    rcases Prod.mk.injEq .. ▸ heq with ⟨hap, hee⟩
    subst hap
    exact ⟨ha, l, hl, hee.symm⟩
  · rintro ⟨hp, l, hl, he⟩
    exact ⟨p, hp, l, hl, by rw [he]⟩

theorem mem_neighborRaw {filePaths : List String} {edges : List GraphEdge} {x : String} :
    x ∈ neighborRaw filePaths edges ↔
      x ∉ filePaths ∧ AdjacentUndirected filePaths edges x := by
  rw [neighborRaw, List.mem_flatMap]
  constructor
  · rintro ⟨ed, hed, hx⟩
    rcases List.mem_append.mp hx with hx | hx
    · by_cases hc : ed.source ∈ filePaths ∧ ed.target ∉ filePaths
      · rw [if_pos hc] at hx
        rcases List.mem_singleton.mp hx with rfl
        exact ⟨hc.2, ed, hed, Or.inl ⟨hc.1, rfl⟩⟩
      · rw [if_neg hc] at hx
        cases hx
    · by_cases hc : ed.target ∈ filePaths ∧ ed.source ∉ filePaths
      · rw [if_pos hc] at hx
        rcases List.mem_singleton.mp hx with rfl
        exact ⟨hc.2, ed, hed, Or.inr ⟨hc.1, rfl⟩⟩
      · rw [if_neg hc] at hx
        cases hx
  · rintro ⟨hnot, ed, hed, hcase⟩
    refine ⟨ed, hed, List.mem_append.mpr ?_⟩
    rcases hcase with ⟨hs, ht⟩ | ⟨ht, hs⟩
    · refine Or.inl ?_
      rw [if_pos ⟨hs, ht ▸ hnot⟩]
      simp [ht]
    · refine Or.inr ?_
      rw [if_pos ⟨ht, hs ▸ hnot⟩]
      simp [hs]

theorem mem_neighborEntries {filePaths : List String} {edges : List GraphEdge}
    {allLocks : List (String × LockEntry)} {direct : List (String × EnrichedLockEntry)}
    {p : String} {e : EnrichedLockEntry} :
    (p, e) ∈ neighborEntries filePaths edges allLocks direct ↔
      p ∈ dedupFirst (neighborRaw filePaths edges) ∧
      ∃ l, lookupA allLocks p = some l ∧ (direct.filter fun q => q.1 = p) = [] ∧
        e = ⟨l, l.user_id, LockType.NEIGHBOR⟩ := by
  rw [neighborEntries, List.mem_filterMap]
  constructor
  · rintro ⟨a, ha, hf⟩
    rcases hl : lookupA allLocks a with _ | l
    · simp only [hl] at hf
      cases hf
    · simp only [hl] at hf
      by_cases hfil : (direct.filter fun q => q.1 = a) ≠ []
      · rw [if_pos hfil] at hf
        cases hf
      · rw [if_neg hfil] at hf
        rcases Option.some.injEq .. ▸ hf with heq
        rcases Prod.mk.injEq .. ▸ heq with ⟨hap, hee⟩
        subst hap
        exact ⟨ha, l, hl, not_not.mp hfil, hee.symm⟩
  · rintro ⟨hp, l, hl, hfil, he⟩
    refine ⟨p, hp, ?_⟩
    simp only [hl]
    rw [if_neg (not_not.mpr hfil), he]

/-- Claim C4: in every `check_status` response, a returned lock is tagged
DIRECT exactly when its path was requested; a NEIGHBOR tag implies the
path was not requested and is adjacent (undirected) to a requested path in
the cached graph; conversely every locked requested path appears tagged
DIRECT, and every locked, adjacent, non-requested path appears tagged
NEIGHBOR — so DIRECT wins whenever both situations apply. -/
theorem c4_lock_tagging (hUser hUsername : Option String) (branch : String)
    (filePaths : List String) (agentHead repoHead : String)
    (allLocks : List (String × LockEntry)) (gout : GraphOutcome) :
    (∀ p e, (p, e) ∈ (checkStatusRoute hUser hUsername branch filePaths agentHead repoHead
        allLocks gout).locks →
      lookupA allLocks p = some e.entry ∧
      (e.lock_type = LockType.DIRECT ↔ p ∈ filePaths) ∧
      (e.lock_type = LockType.NEIGHBOR →
        p ∉ filePaths ∧ AdjacentUndirected filePaths gout.edgesOf p)) ∧
    (∀ p l, lookupA allLocks p = some l →
      (p ∈ filePaths →
        (p, ⟨l, l.user_id, LockType.DIRECT⟩) ∈ (checkStatusRoute hUser hUsername branch
          filePaths agentHead repoHead allLocks gout).locks) ∧
      (p ∉ filePaths → AdjacentUndirected filePaths gout.edgesOf p →
        (p, ⟨l, l.user_id, LockType.NEIGHBOR⟩) ∈ (checkStatusRoute hUser hUsername branch
          filePaths agentHead repoHead allLocks gout).locks)) := by
  have hlocks : (checkStatusRoute hUser hUsername branch filePaths agentHead repoHead
      allLocks gout).locks = checkEnriched filePaths allLocks gout := rfl
  constructor
  · intro p e hmem
    rw [hlocks, checkEnriched] at hmem
    rcases List.mem_append.mp hmem with hmem | hmem
    · rcases mem_directEntries.mp hmem with ⟨hp, l, hl, he⟩
      subst he
      refine ⟨hl, by simp [hp], ?_⟩
      intro hT
      cases hT
    · rcases mem_neighborEntries.mp hmem with ⟨hp, l, hl, _, he⟩
      rcases mem_neighborRaw.mp (mem_dedupFirst.mp hp) with ⟨hnot, hadj⟩
      subst he
      refine ⟨hl, by simp [hnot], fun _ => ⟨hnot, hadj⟩⟩
  · intro p l hl
    constructor
    · intro hp
      rw [hlocks, checkEnriched]
      exact List.mem_append.mpr (Or.inl (mem_directEntries.mpr ⟨hp, l, hl, rfl⟩))
    · intro hnot hadj
      rw [hlocks, checkEnriched]
      refine List.mem_append.mpr (Or.inr (mem_neighborEntries.mpr
        ⟨mem_dedupFirst.mpr (mem_neighborRaw.mpr ⟨hnot, hadj⟩), l, hl, ?_, rfl⟩))
      rw [List.filter_eq_nil_iff]
      intro q hq
      rcases q with ⟨pq, eq2⟩
      rcases mem_directEntries.mp hq with ⟨hpq, _⟩
      intro hdec
      have : pq = p := of_decide_eq_true hdec
      exact hnot (this ▸ hpq)

/-- Witness for `c4_lock_tagging` on the spec's neighbor scenario: a lock
on `src/dependency.ts`, requested path `src/a.ts`, cached edge
`src/a.ts → src/dependency.ts`. -/
theorem c4_witness :
    ("src/dependency.ts",
      ⟨{ file_path := "src/dependency.ts", user_id := "neighbor-user"
         user_name := "Neighbor User", status := "WRITING", agent_head := "remote-head"
         message := "editing dependency", timestamp := 110, expiry := 210 },
       "neighbor-user", LockType.NEIGHBOR⟩) ∈
      (checkStatusRoute (some "agent-user") none "main" ["src/a.ts"] "remote-head"
        "remote-head"
        [("src/dependency.ts",
          { file_path := "src/dependency.ts", user_id := "neighbor-user"
            user_name := "Neighbor User", status := "WRITING", agent_head := "remote-head"
            message := "editing dependency", timestamp := 110, expiry := 210 })]
        (GraphOutcome.ok
          { nodes := [], edges := [{ source := "src/a.ts", target := "src/dependency.ts" }]
            locks := [], version := "v1"
            metadata := { generated_at := 1, files_processed := 1, edges_found := 1 } })).locks := by
  have h := (c4_lock_tagging (some "agent-user") none "main" ["src/a.ts"] "remote-head"
    "remote-head"
    [("src/dependency.ts",
      { file_path := "src/dependency.ts", user_id := "neighbor-user"
        user_name := "Neighbor User", status := "WRITING", agent_head := "remote-head"
        message := "editing dependency", timestamp := 110, expiry := 210 })]
    (GraphOutcome.ok
      { nodes := [], edges := [{ source := "src/a.ts", target := "src/dependency.ts" }]
        locks := [], version := "v1"
        metadata := { generated_at := 1, files_processed := 1, edges_found := 1 } })).2
    "src/dependency.ts"
    { file_path := "src/dependency.ts", user_id := "neighbor-user"
      user_name := "Neighbor User", status := "WRITING", agent_head := "remote-head"
      message := "editing dependency", timestamp := 110, expiry := 210 }
    (by decide)
  exact h.2 (by decide)
    ⟨{ source := "src/a.ts", target := "src/dependency.ts" }, by decide,
      Or.inl ⟨by decide, rfl⟩⟩

/-! ## Claim C10 -/

/-- Claim C10: a graph-cache read failure (error or unparsable/absent
cache) never fails either endpoint: `check_status` still answers 200 with
the direct locks and no neighbor overlay, and a `post_status` OPEN request
that reaches the release path still answers `success=true` with an empty
`orphaned_dependencies` list. -/
theorem c10_graph_failure_is_soft (hUser hUsername : Option String) (branch : String)
    (filePaths : List String) (agentHead repoHead : String)
    (allLocks : List (String × LockEntry)) (gout : GraphOutcome) (message : String)
    (agentHeadO newRepoHead : Option String) (acq : AcquireOutcome)
    (hG : gout.isOk = false) :
    ((checkStatusRoute hUser hUsername branch filePaths agentHead repoHead allLocks
        gout).httpStatus = 200 ∧
     (checkStatusRoute hUser hUsername branch filePaths agentHead repoHead allLocks
        gout).locks = directEntries filePaths allLocks) ∧
    (¬ (isNonEmptyStringO newRepoHead = true ∧ isNonEmptyStringO agentHeadO = true ∧
        newRepoHead = agentHeadO) →
      (postStatusRoute hUser hUsername filePaths CoordStatus.OPEN message agentHeadO
          newRepoHead repoHead acq gout).httpStatus = 200 ∧
      (postStatusRoute hUser hUsername filePaths CoordStatus.OPEN message agentHeadO
          newRepoHead repoHead acq gout).success = some true ∧
      (postStatusRoute hUser hUsername filePaths CoordStatus.OPEN message agentHeadO
          newRepoHead repoHead acq gout).orphaned = some []) := by
  have hedges : gout.edgesOf = [] := by
    cases gout with
    | ok g => cases hG
    | absent => rfl
    | err => rfl
  constructor
  · refine ⟨rfl, ?_⟩
    show checkEnriched filePaths allLocks gout = directEntries filePaths allLocks
    rw [checkEnriched, neighborEntries, hedges]
    simp [neighborRaw, dedupFirst, dedupFirstAux]
  · intro hPush
    have hno : ¬ (isNonEmptyStringO newRepoHead ∧ isNonEmptyStringO agentHeadO ∧
        newRepoHead = agentHeadO) := by
      intro hc
      exact hPush ⟨hc.1, hc.2.1, hc.2.2⟩
    refine ⟨?_, ?_, ?_⟩
    · simp only [postStatusRoute]
      rw [if_neg hno]
    · simp only [postStatusRoute]
      rw [if_neg hno]
    · simp only [postStatusRoute]
      rw [if_neg hno]
      show some (orphanedDeps filePaths gout) = some []
      rw [orphanedDeps, hedges]
      simp [dedupFirst, dedupFirstAux]

/-- Witness for `c10_graph_failure_is_soft`: a thrown graph-cache read on
both endpoints, with a direct lock present. -/
theorem c10_witness :
    ((checkStatusRoute (some "u") none "main" ["src/a.ts"] "h" "h"
        [("src/a.ts",
          { file_path := "src/a.ts", user_id := "user-1", user_name := "User One"
            status := "WRITING", agent_head := "h", message := "work"
            timestamp := 100, expiry := 200 })]
        GraphOutcome.err).httpStatus = 200 ∧
     (checkStatusRoute (some "u") none "main" ["src/a.ts"] "h" "h"
        [("src/a.ts",
          { file_path := "src/a.ts", user_id := "user-1", user_name := "User One"
            status := "WRITING", agent_head := "h", message := "work"
            timestamp := 100, expiry := 200 })]
        GraphOutcome.err).locks = directEntries ["src/a.ts"]
        [("src/a.ts",
          { file_path := "src/a.ts", user_id := "user-1", user_name := "User One"
            status := "WRITING", agent_head := "h", message := "work"
            timestamp := 100, expiry := 200 })]) ∧
    ((postStatusRoute (some "u") none ["src/a.ts"] CoordStatus.OPEN "done" none none "h"
        (AcquireOutcome.ok []) GraphOutcome.err).httpStatus = 200 ∧
     (postStatusRoute (some "u") none ["src/a.ts"] CoordStatus.OPEN "done" none none "h"
        (AcquireOutcome.ok []) GraphOutcome.err).success = some true ∧
     (postStatusRoute (some "u") none ["src/a.ts"] CoordStatus.OPEN "done" none none "h"
        (AcquireOutcome.ok []) GraphOutcome.err).orphaned = some []) := by
  have h := c10_graph_failure_is_soft (some "u") none "main" ["src/a.ts"] "h" "h"
    [("src/a.ts",
      { file_path := "src/a.ts", user_id := "user-1", user_name := "User One"
        status := "WRITING", agent_head := "h", message := "work"
        timestamp := 100, expiry := 200 })]
    GraphOutcome.err "done" none none (AcquireOutcome.ok []) rfl
  exact ⟨h.1, h.2 (by intro hc; exact absurd hc.1 (by decide))⟩

/-! ## Claim C8 -/

theorem mkActivityEvents_map_file_path (ts : Nat) (userId userName : String)
    (status : CoordStatus) (message : String) :
    ∀ (i : Nat) (filePaths : List String),
      (mkActivityEvents ts userId userName status message i filePaths).map
        ActivityEvent.file_path = filePaths := by
  intro i filePaths
  induction filePaths generalizing i with
  | nil => rfl
  | cons fp rest ih => simp [mkActivityEvents, ih]

theorem mkActivityEvents_length (ts : Nat) (userId userName : String)
    (status : CoordStatus) (message : String) (i : Nat) (filePaths : List String) :
    (mkActivityEvents ts userId userName status message i filePaths).length
      = filePaths.length := by
  have h := congrArg List.length
    (mkActivityEvents_map_file_path ts userId userName status message i filePaths)
  simpa using h

/-- Claim C8: a state-changing `post_status` publishes exactly one event
per affected file, prepended to the per-namespace list, which is trimmed
to at most 500 entries — a push against a full list of 500 drops the
oldest entries; reads return at most the newest N events (N defaulting to
120) and reverse them, so the window is delivered oldest-first with the
newest event last. -/
theorem c8_activity_log (ts : Nat) (userId userName : String) (status : CoordStatus)
    (message : String) (filePaths : List String) (old : List ActivityEvent) (lim : Nat)
    (hFP : filePaths ≠ []) :
    ((mkActivityEvents ts userId userName status message 0 filePaths).map
        ActivityEvent.file_path = filePaths) ∧
    (postStatusActivityPublish ts userId userName status message filePaths old =
      List.take MAX_ACTIVITY_RETENTION
        ((mkActivityEvents ts userId userName status message 0 filePaths).reverse ++ old)) ∧
    ((postStatusActivityPublish ts userId userName status message filePaths old).length
      ≤ MAX_ACTIVITY_RETENTION) ∧
    (old.length = MAX_ACTIVITY_RETENTION → filePaths.length ≤ MAX_ACTIVITY_RETENTION →
      postStatusActivityPublish ts userId userName status message filePaths old =
        (mkActivityEvents ts userId userName status message 0 filePaths).reverse ++
          old.take (MAX_ACTIVITY_RETENTION - filePaths.length)) ∧
    ((getRecentActivityEvents lim old).reverse = old.take (max 1 lim)) ∧
    ((getRecentActivityEvents lim old).length ≤ max 1 lim) ∧
    (old ≠ [] → (getRecentActivityEvents lim old).getLast? = old.head?) ∧
    DEFAULT_ACTIVITY_LIMIT = 120 := by
  refine ⟨mkActivityEvents_map_file_path ts userId userName status message 0 filePaths,
    ?_, ?_, ?_, ?_, ?_, ?_, rfl⟩
  · rw [postStatusActivityPublish, publishActivityEvents, if_neg hFP]
  · rw [postStatusActivityPublish, publishActivityEvents, if_neg hFP]
    rw [List.length_take]
    exact min_le_left _ _
  · intro hOld hLen
    rw [postStatusActivityPublish, publishActivityEvents, if_neg hFP]
    rw [List.take_append_eq_append_take]
    have hrl : (mkActivityEvents ts userId userName status message 0 filePaths).reverse.length
        = filePaths.length := by
      rw [List.length_reverse, mkActivityEvents_length]
    rw [hrl, List.take_of_length_le (by rw [hrl]; exact hLen)]
  · rw [getRecentActivityEvents, List.reverse_reverse]
  · rw [getRecentActivityEvents, List.length_reverse, List.length_take]
    exact min_le_left _ _
  · intro hne
    rw [getRecentActivityEvents, List.getLast?_reverse]
    rcases old with _ | ⟨a, rest⟩
    · exact absurd rfl hne
    · rcases Nat.exists_eq_add_of_le (Nat.one_le_iff_ne_zero.mpr
        (Nat.pos_iff_ne_zero.mp (lt_of_lt_of_le Nat.zero_lt_one (le_max_left 1 lim)))) with
        ⟨k, hk⟩
      rw [hk, Nat.add_comm, List.take_succ_cons]
      rfl

/-- Witness for `c8_activity_log` at a small concrete input. -/
theorem c8_witness :
    ((mkActivityEvents 7 "u" "U" CoordStatus.WRITING "m" 0 ["a.ts", "b.ts"]).map
        ActivityEvent.file_path = ["a.ts", "b.ts"]) ∧
    (postStatusActivityPublish 7 "u" "U" CoordStatus.WRITING "m" ["a.ts", "b.ts"] [] =
      List.take MAX_ACTIVITY_RETENTION
        ((mkActivityEvents 7 "u" "U" CoordStatus.WRITING "m" 0 ["a.ts", "b.ts"]).reverse ++
          [])) ∧
    ((postStatusActivityPublish 7 "u" "U" CoordStatus.WRITING "m" ["a.ts", "b.ts"] []).length
      ≤ MAX_ACTIVITY_RETENTION) := by
  have h := c8_activity_log 7 "u" "U" CoordStatus.WRITING "m" ["a.ts", "b.ts"] [] 120
    (by decide)
  exact ⟨h.1, h.2.1, h.2.2.1⟩

/-! ## Claim C9 -/

theorem generate_shortcircuit (remote : RemoteRepo) (kv : KvGraphState)
    (locksNow : List (String × LockEntry)) (g : DependencyGraph) (now2 : Nat)
    (hblob : kv.graphBlob = some g) (hmeta : kv.meta = some remote.head) :
    generate false now2 remote kv locksNow =
      { graph := { g with locks := locksNow }, kv := kv } := by
  rcases kv with ⟨blob, meta, shas⟩
  simp only at hblob hmeta
  subst hblob
  subst hmeta
  simp [generate]

theorem buildGraph_kv_blob (now : Nat) (remote : RemoteRepo) (kv : KvGraphState)
    (locksNow : List (String × LockEntry)) :
    (buildGraph now remote kv locksNow).kv.graphBlob =
      some { (buildGraph now remote kv locksNow).graph with locks := [] } := rfl

theorem buildGraph_kv_meta (now : Nat) (remote : RemoteRepo) (kv : KvGraphState)
    (locksNow : List (String × LockEntry)) :
    (buildGraph now remote kv locksNow).kv.meta = some remote.head := rfl

theorem buildGraph_WF (now : Nat) (remote : RemoteRepo) (kv : KvGraphState)
    (locksNow : List (String × LockEntry)) :
    KvWF (buildGraph now remote kv locksNow).kv := by
  intro g hg
  rw [buildGraph_kv_blob] at hg
  cases hg
  exact ⟨rfl, List.sorted_insertionSort nodeLeR _, List.sorted_insertionSort edgeLeR _⟩

theorem buildGraph_then_generate (now now2 : Nat) (remote : RemoteRepo) (kv : KvGraphState)
    (locksNow : List (String × LockEntry)) :
    generate false now2 remote (buildGraph now remote kv locksNow).kv locksNow =
      buildGraph now remote kv locksNow := by
  rw [generate_shortcircuit remote (buildGraph now remote kv locksNow).kv locksNow
    { (buildGraph now remote kv locksNow).graph with locks := [] } now2
    (buildGraph_kv_blob now remote kv locksNow) (buildGraph_kv_meta now remote kv locksNow)]
  rfl

theorem c9_build_case (now now2 : Nat) (remote : RemoteRepo) (kv : KvGraphState)
    (locksNow : List (String × LockEntry)) :
    (buildGraph now remote kv locksNow).graph.version = remote.head ∧
    List.Sorted nodeLeR (buildGraph now remote kv locksNow).graph.nodes ∧
    List.Sorted edgeLeR (buildGraph now remote kv locksNow).graph.edges ∧
    KvWF (buildGraph now remote kv locksNow).kv ∧
    generate false now2 remote (buildGraph now remote kv locksNow).kv locksNow =
      buildGraph now remote kv locksNow :=
  ⟨rfl, List.sorted_insertionSort nodeLeR _, List.sorted_insertionSort edgeLeR _,
    buildGraph_WF now remote kv locksNow, buildGraph_then_generate now now2 remote kv locksNow⟩

/-- Claim C9: every graph `generate` returns carries `version` equal to
the current remote head, with nodes sorted by id and edges sorted by
source then target (given a well-formed cache, which every build
re-establishes); re-running `generate` on the same commit without
intervening tree changes returns the identical graph — equal even in
`metadata.generated_at`, hence idempotent up to it. -/
theorem c9_generate (force : Bool) (now now2 : Nat) (remote : RemoteRepo)
    (kv : KvGraphState) (locksNow : List (String × LockEntry)) (hWF : KvWF kv) :
    (generate force now remote kv locksNow).graph.version = remote.head ∧
    List.Sorted nodeLeR (generate force now remote kv locksNow).graph.nodes ∧
    List.Sorted edgeLeR (generate force now remote kv locksNow).graph.edges ∧
    KvWF (generate force now remote kv locksNow).kv ∧
    generate false now2 remote (generate force now remote kv locksNow).kv locksNow =
      generate force now remote kv locksNow := by
  rcases kv with ⟨blob, meta, shas⟩
  cases force with
  | true =>
    have heq : generate true now remote ⟨blob, meta, shas⟩ locksNow =
        buildGraph now remote ⟨blob, meta, shas⟩ locksNow := by
      cases blob <;> rfl
    rw [heq]
    exact c9_build_case now now2 remote ⟨blob, meta, shas⟩ locksNow
  | false =>
    cases blob with
    | none =>
      have heq : generate false now remote ⟨none, meta, shas⟩ locksNow =
          buildGraph now remote ⟨none, meta, shas⟩ locksNow := rfl
      rw [heq]
      exact c9_build_case now now2 remote ⟨none, meta, shas⟩ locksNow
    | some g =>
      by_cases hm : meta = some remote.head
      · have heq : generate false now remote ⟨some g, meta, shas⟩ locksNow =
            { graph := { g with locks := locksNow }, kv := ⟨some g, meta, shas⟩ } :=
          generate_shortcircuit remote ⟨some g, meta, shas⟩ locksNow g now rfl hm
        rw [heq]
        obtain ⟨hv, hn, he⟩ := hWF g rfl
        have hver : g.version = remote.head := by
          have : some g.version = some remote.head := hv ▸ hm
          exact Option.some.injEq .. ▸ this
        exact ⟨hver, hn, he, hWF,
          generate_shortcircuit remote ⟨some g, meta, shas⟩ locksNow g now2 rfl hm⟩
      · have heq : generate false now remote ⟨some g, meta, shas⟩ locksNow =
            buildGraph now remote ⟨some g, meta, shas⟩ locksNow := by
          simp [generate, hm]
        rw [heq]
        exact c9_build_case now now2 remote ⟨some g, meta, shas⟩ locksNow

/-- Witness for `c9_generate`: a first build on an empty cache for a
one-file repository at head `"c1"`. -/
theorem c9_witness :
    (generate false 5
        { head := "c1", tree := [{ path := "a.ts", sha := "s1", size := none }]
          lang := fun _ => some "typescript", importsOf := fun _ => [] }
        { graphBlob := none, meta := none, fileShas := [] } []).graph.version = "c1" ∧
    List.Sorted nodeLeR (generate false 5
        { head := "c1", tree := [{ path := "a.ts", sha := "s1", size := none }]
          lang := fun _ => some "typescript", importsOf := fun _ => [] }
        { graphBlob := none, meta := none, fileShas := [] } []).graph.nodes ∧
    List.Sorted edgeLeR (generate false 5
        { head := "c1", tree := [{ path := "a.ts", sha := "s1", size := none }]
          lang := fun _ => some "typescript", importsOf := fun _ => [] }
        { graphBlob := none, meta := none, fileShas := [] } []).graph.edges ∧
    KvWF (generate false 5
        { head := "c1", tree := [{ path := "a.ts", sha := "s1", size := none }]
          lang := fun _ => some "typescript", importsOf := fun _ => [] }
        { graphBlob := none, meta := none, fileShas := [] } []).kv ∧
    generate false 7
        { head := "c1", tree := [{ path := "a.ts", sha := "s1", size := none }]
          lang := fun _ => some "typescript", importsOf := fun _ => [] }
        (generate false 5
          { head := "c1", tree := [{ path := "a.ts", sha := "s1", size := none }]
            lang := fun _ => some "typescript", importsOf := fun _ => [] }
          { graphBlob := none, meta := none, fileShas := [] } []).kv [] =
      generate false 5
        { head := "c1", tree := [{ path := "a.ts", sha := "s1", size := none }]
          lang := fun _ => some "typescript", importsOf := fun _ => [] }
        { graphBlob := none, meta := none, fileShas := [] } [] :=
  c9_generate false 5 7
    { head := "c1", tree := [{ path := "a.ts", sha := "s1", size := none }]
      lang := fun _ => some "typescript", importsOf := fun _ => [] }
    { graphBlob := none, meta := none, fileShas := [] } []
    (fun _ hg => Option.noConfusion hg)

end Relay
